import Mathlib

/-!
Verification of the pyhetdex parsing core: the dither-file parser
(`pyhetdex/het/dither.py`), the IFU center-file row parser
(`pyhetdex/het/ifu_centers.py`), the list-valued configuration
extension (`pyhetdex/tools/configuration.py`) and the comment skipper
(`pyhetdex/common/file_tools.py`).

Python strings are modelled as Lean `String`s, operated on through
their character lists so that everything reduces in the kernel.
Python dicts are modelled as insertion-ordered association lists over
`String` keys, with assignment overwriting in place.  Python `float`
values produced by `float(token)` are modelled exactly as decimal
numbers `(mantissa, places)` meaning `mantissa / 10 ^ places`; the
represented value is negative iff the mantissa is negative, which is
all the source ever asks of these values.
-/

deriving instance DecidableEq for Except

/-! ### Character-level string utilities (Python `str` methods) -/

/-- Characters treated as whitespace by Python `str.split()` / `str.strip()`
(restricted to the ASCII whitespace the data files use). -/
def isPySpace (c : Char) : Bool := c.isWhitespace

/-- Python `str.strip()` on a character list. -/
def charStrip (cs : List Char) : List Char :=
  ((cs.dropWhile isPySpace).reverse.dropWhile isPySpace).reverse

/-- Python `str.strip()`. -/
def pyStrip (s : String) : String := String.mk (charStrip s.toList)

/-- Python `s.startswith(p)`. -/
def pyStartsWith (s p : String) : Bool := p.toList.isPrefixOf s.toList

/-- Helper for `splitWS`: accumulate the current (reversed) token while
scanning; whitespace runs separate tokens and produce no empty tokens. -/
def wsSplitAux : List Char → List Char → List String
  | [], acc => if acc.isEmpty then [] else [String.mk acc.reverse]
  | c :: cs, acc =>
    if isPySpace c then
      if acc.isEmpty then wsSplitAux cs []
      else String.mk acc.reverse :: wsSplitAux cs []
    else wsSplitAux cs (c :: acc)

/-- Python `str.split()` with no argument: split on whitespace runs,
discarding empty tokens. -/
def splitWS (s : String) : List String := wsSplitAux s.toList []

/-- Helper for `splitOnChar`: Python `str.split(sep)` for a single-character
separator, keeping empty fields. -/
def splitOnCharAux (sep : Char) : List Char → List Char → List (List Char)
  | [], acc => [acc.reverse]
  | c :: cs, acc =>
    if c = sep then acc.reverse :: splitOnCharAux sep cs []
    else splitOnCharAux sep cs (c :: acc)

/-- Python `str.split(sep)` for a one-character separator. -/
def splitOnChar (sep : Char) (cs : List Char) : List (List Char) :=
  splitOnCharAux sep cs []

/-- Helper for `pySplit`: fuelled scan so the definition is structural and
kernel-reducible.  The fuel is always at least the input length at call
sites, so the fuel-exhausted branch is never taken. -/
def splitSepAux (s0 : Char) (srest : List Char) : Nat → List Char → List Char → List (List Char)
  | _, [], acc => [acc.reverse]
  | 0, cs, acc => [acc.reverse ++ cs]
  | fuel + 1, c :: cs, acc =>
    if s0 = c ∧ srest.isPrefixOf cs then
      acc.reverse :: splitSepAux s0 srest fuel (cs.drop srest.length) []
    else splitSepAux s0 srest fuel cs (c :: acc)

/-- Python `str.split(sep)` for a non-empty separator string (Python raises
on an empty separator; we return the input whole in that case). -/
def pySplit (s sep : String) : List String :=
  match sep.toList with
  | [] => [s]
  | s0 :: srest =>
    (splitSepAux s0 srest s.toList.length s.toList []).map String.mk

/-! ### Python numeric conversions -/

/-- Value of a list of decimal digit characters. -/
def digitsVal (cs : List Char) : Nat :=
  cs.foldl (fun a c => 10 * a + (c.toNat - 48)) 0

/-- All characters are ASCII decimal digits. -/
def allDigits (cs : List Char) : Bool := cs.all Char.isDigit

/-- Magnitude part of Python `int(token)`: a non-empty digit string. -/
def pyintMag (cs : List Char) : Option Nat :=
  if cs.isEmpty || !allDigits cs then none else some (digitsVal cs)

/-- Python `int(token)` on plain decimal integer literals: strip
whitespace, optional sign, non-empty digits; `none` models the
`ValueError` raised on anything else (e.g. `nan`, `--`). -/
def pyint (s : String) : Option Int :=
  match charStrip s.toList with
  | '+' :: cs => (pyintMag cs).map (fun n => (n : Int))
  | '-' :: cs => (pyintMag cs).map (fun n => -(n : Int))
  | cs => (pyintMag cs).map (fun n => (n : Int))

/-- Exact decimal number `(mantissa, places)` representing
`mantissa / 10 ^ places`; the result of a successful Python
`float(token)` conversion on a plain decimal literal.  The represented
value is negative iff the mantissa is negative and zero iff the
mantissa is zero. -/
abbrev PyFloat := Int × Nat

/-- Magnitude part of Python `float(token)`: `digits`, `digits.digits`,
`digits.` or `.digits`. -/
def pyfloatMag (cs : List Char) : Option PyFloat :=
  match splitOnChar '.' cs with
  | [ip] =>
    if ip.isEmpty || !allDigits ip then none
    else some ((digitsVal ip : Int), 0)
  | [ip, fp] =>
    if (ip.isEmpty && fp.isEmpty) || !allDigits ip || !allDigits fp then none
    else some ((digitsVal ip * 10 ^ fp.length + digitsVal fp : Int), fp.length)
  | _ => none

/-- Python `float(token)` on plain decimal literals: strip whitespace,
optional sign, digits with an optional decimal point; `none` models the
`ValueError` raised on anything else. -/
def pyfloat (s : String) : Option PyFloat :=
  match charStrip s.toList with
  | '+' :: cs => pyfloatMag cs
  | '-' :: cs => (pyfloatMag cs).map (fun d => (-d.1, d.2))
  | cs => pyfloatMag cs

/-! ### Python dict as insertion-ordered association list -/

/-- Python `d[k]` lookup (`None` when the key is absent). -/
def dlookup {α : Type} : List (String × α) → String → Option α
  | [], _ => none
  | (k, v) :: m, k' => if k = k' then some v else dlookup m k'

/-- Python `d[k] = v`: overwrite in place if the key exists, else append. -/
def dinsert {α : Type} : List (String × α) → String → α → List (String × α)
  | [], k, v => [(k, v)]
  | (k', v') :: m, k, v =>
    if k' = k then (k, v) :: m else (k', v') :: dinsert m k v

/-- Key list of a dict, in insertion order. -/
def dkeys {α : Type} (m : List (String × α)) : List String := m.map Prod.fst

theorem dkeys_dinsert {α : Type} (m : List (String × α)) (k : String) (v : α) :
    dkeys (dinsert m k v) = if k ∈ dkeys m then dkeys m else dkeys m ++ [k] := by
  induction m with
  | nil => simp [dinsert, dkeys]
  | cons p m ih =>
    obtain ⟨k', v'⟩ := p
    by_cases h : k' = k
    · subst h
      simp [dinsert, dkeys]
    · have hne : ¬(k = k') := fun hh => h hh.symm
      simp only [dkeys] at ih ⊢
      simp only [dinsert, if_neg h, List.map_cons, ih, List.mem_cons, hne, false_or]
      by_cases hm : k ∈ List.map Prod.fst m
      · simp [hm]
      · simp [hm]

theorem dlookup_dinsert_self {α : Type} (m : List (String × α)) (k : String) (v : α) :
    dlookup (dinsert m k v) k = some v := by
  induction m with
  | nil => simp [dinsert, dlookup]
  | cons p m ih =>
    obtain ⟨k', v'⟩ := p
    by_cases h : k' = k
    · subst h
      simp [dinsert, dlookup]
    · simp [dinsert, dlookup, h, ih]

theorem dlookup_dinsert_ne {α : Type} (m : List (String × α)) (k k' : String) (v : α)
    (h : k' ≠ k) : dlookup (dinsert m k v) k' = dlookup m k' := by
  have h2 : ¬(k = k') := fun hh => h hh.symm
  induction m with
  | nil => simp [dinsert, dlookup, h2]
  | cons p m ih =>
    obtain ⟨k₀, v₀⟩ := p
    by_cases h0 : k₀ = k
    · subst h0
      simp [dinsert, dlookup, h2]
    · simp only [dinsert, if_neg h0, dlookup]
      by_cases h1 : k₀ = k'
      · simp [h1]
      · simp [h1, ih]

/-! ### Dither file parser (`ParseDither._read_dither`, dither.py lines 158-188)

The loop keeps the seven unpacked local variables across iterations:
a line that does not split into exactly 7 fields leaves them at their
previous values (`except ValueError: pass`), and if no line has bound
them yet the following regex step raises `UnboundLocalError`
(`nameError` below).  On a bound line the second field (the variable
`_d`, the modelbase column) is searched for the pattern `D` followed
by a digit; an empty deduplicated match set raises `DitherParseError`
carrying `len(_d)` — the character length of that raw field — in its
message.  Otherwise one element of the match set is chosen
(`list(set(...))[0]`, an unspecified choice modelled by the `choose`
parameter) and the six values are stored under that key, `float`
conversion failures propagating as errors. -/

/-- The seven local variables `_bn, _d, _x, _y, _seeing, _norm, _airmass`
of the `_read_dither` loop. -/
structure PyEnv where
  bn : String
  d : String
  x : String
  y : String
  se : String
  no : String
  am : String
deriving DecidableEq

/-- The five public dictionaries of the dither object. -/
structure DitherMaps where
  basename : List (String × String)
  dx : List (String × PyFloat)
  dy : List (String × PyFloat)
  seeing : List (String × PyFloat)
  norm : List (String × PyFloat)
  airmass : List (String × PyFloat)
deriving DecidableEq

/-- The dither object starts with five empty dictionaries. -/
def emptyDitherMaps : DitherMaps := ⟨[], [], [], [], [], []⟩

/-- Ways `_read_dither` can raise: `UnboundLocalError` from using the
loop variables before any line bound them, `DitherParseError` (carrying
the number the message reports, which the source computes as `len(_d)`),
and an uncaught `ValueError` from `float()`. -/
inductive DitherErr
  | nameError
  | parseErr (reported : Nat)
  | floatErr
deriving DecidableEq

/-- Matches of the regular expression `D\d` in a string, scanned left to
right without overlap as `re.findall` does. -/
def findD : List Char → List String
  | 'D' :: c :: cs =>
    if c.isDigit then String.mk ['D', c] :: findD cs else findD (c :: cs)
  | _ :: cs => findD cs
  | [] => []

/-- Helper for `dedupFirst` carrying the set of already-seen strings. -/
def dedupFirstAux : List String → List String → List String
  | [], _ => []
  | x :: xs, seen =>
    if x ∈ seen then dedupFirstAux xs seen else x :: dedupFirstAux xs (x :: seen)

/-- Distinct elements of a list (the membership of Python `set(...)`;
the order of the model is first occurrence, but the parser consumes the
result only through `choose` and emptiness, neither of which depends on
the order). -/
def dedupFirst (l : List String) : List String := dedupFirstAux l []

/-- The seven-way unpacking `_bn, _d, ... = l.split()`: on exactly seven
fields the variables are rebound, otherwise (`except ValueError: pass`)
they keep whatever they held before. -/
def ditherEnv (env : Option PyEnv) (l : String) : Option PyEnv :=
  match splitWS l with
  | [a, b, c, d, e, f, g] => some ⟨a, b, c, d, e, f, g⟩
  | _ => env

/-- The five dictionary assignments of one successful loop iteration,
all under the same derived key. -/
def ditherUpd (st : DitherMaps) (key bn : String) (fx fy fs fn fa : PyFloat) : DitherMaps :=
  { basename := dinsert st.basename key bn
    dx := dinsert st.dx key fx
    dy := dinsert st.dy key fy
    seeing := dinsert st.seeing key fs
    norm := dinsert st.norm key fn
    airmass := dinsert st.airmass key fa }

/-- One iteration of the `_read_dither` loop on one line. -/
def ditherLine (choose : List String → String) (env : Option PyEnv) (st : DitherMaps)
    (l : String) : Except DitherErr (Option PyEnv × DitherMaps) :=
  match ditherEnv env l with
  | none => .error .nameError
  | some e =>
    if (dedupFirst (findD e.d.toList)).isEmpty then .error (.parseErr e.d.toList.length)
    else
      match pyfloat e.x, pyfloat e.y, pyfloat e.se, pyfloat e.no, pyfloat e.am with
      | some fx, some fy, some fs, some fn, some fa =>
        .ok (some { e with d := choose (dedupFirst (findD e.d.toList)) },
          ditherUpd st (choose (dedupFirst (findD e.d.toList))) e.bn fx fy fs fn fa)
      | _, _, _, _, _ => .error .floatErr

/-- The `_read_dither` loop over the remaining lines. -/
def ditherLoop (choose : List String → String) :
    Option PyEnv → DitherMaps → List String → Except DitherErr DitherMaps
  | _, st, [] => .ok st
  | env, st, l :: rest =>
    match ditherLine choose env st l with
    | .error e => .error e
    | .ok (env', st') => ditherLoop choose env' st' rest

/-- `ParseDither._read_dither` on the list of lines of the file: skip the
leading comment lines (`ft.skip_comments`), then run the loop with the
local variables unbound and the dictionaries empty. -/
def readDither (choose : List String → String) (lines : List String) :
    Except DitherErr DitherMaps :=
  ditherLoop choose none emptyDitherMaps
    (lines.dropWhile (fun l => pyStartsWith l "#"))

/-! ### Comment skipper (`skip_comments`, file_tools.py lines 11-31)

The source records `pos = f.tell()`, iterates over the lines from the
cursor adding `len(l)` for every line whose first character is `#`,
stops at the first other line, and seeks back to the accumulated
position.  A file is modelled as its full character content together
with a character offset. -/

/-- The next line read from a character cursor, including its trailing
newline when present. -/
def takeLine : List Char → List Char
  | [] => []
  | c :: cs => if c = '\n' then ['\n'] else c :: takeLine cs

/-- The characters after the next line. -/
def dropLine : List Char → List Char
  | [] => []
  | c :: cs => if c = '\n' then cs else dropLine cs

theorem takeLine_append_dropLine (cs : List Char) :
    takeLine cs ++ dropLine cs = cs := by
  induction cs with
  | nil => rfl
  | cons c cs ih =>
    by_cases h : c = '\n'
    · simp [takeLine, dropLine, h]
    · simp [takeLine, dropLine, h, ih]

theorem dropLine_length_le (cs : List Char) : (dropLine cs).length ≤ cs.length := by
  induction cs with
  | nil => simp [dropLine]
  | cons c cs ih =>
    by_cases h : c = '\n'
    · simp [dropLine, h]
    · simp only [dropLine, if_neg h]
      exact le_trans ih (Nat.le_succ _)

theorem dropLine_length_lt (c : Char) (cs : List Char) :
    (dropLine (c :: cs)).length < (c :: cs).length := by
  by_cases h : c = '\n'
  · simp [dropLine, h, Nat.lt_succ_self]
  · simp only [dropLine, if_neg h, List.length_cons]
    exact Nat.lt_succ_of_le (dropLine_length_le cs)

/-- Number of characters consumed by the `skip_comments` loop: the total
length of the leading lines whose first character is `#`. -/
def skipCommentsLen : List Char → Nat
  | [] => 0
  | c :: cs =>
    if c = '#' then
      (takeLine (c :: cs)).length + skipCommentsLen (dropLine (c :: cs))
    else 0
termination_by cs => cs.length
decreasing_by exact dropLine_length_lt _ _

/-- The `skip_comments` function: the file content is untouched; the
cursor moves from `pos` past the leading comment lines. -/
def skipComments (content : List Char) (pos : Nat) : Nat :=
  pos + skipCommentsLen (content.drop pos)

/-- The lines of a character stream, each with its trailing newline. -/
def linesOf : List Char → List (List Char)
  | [] => []
  | c :: cs => takeLine (c :: cs) :: linesOf (dropLine (c :: cs))
termination_by cs => cs.length
decreasing_by exact dropLine_length_lt _ _

/-- A line whose first character is `#` (the `l.startswith('#')` test of
the loop). -/
def isCommentLine (l : List Char) : Bool := l.head? == some '#'

/-! ### Dither position storage (`DitherCreator._store_dither_positions`,
dither.py lines 263-275)

Each row is an identifier followed by its trailing values (already
numbers when the table is given in memory); an odd number of trailing
values raises `DitherPositionError`, otherwise the first half goes to
`ifu_dxs` and the second half to `ifu_dys`. -/

/-- The `DitherPositionError` raised on a mismatching number of x and y
entries. -/
inductive DitherPosErr
  | oddCount
deriving DecidableEq

/-- The loop of `_store_dither_positions` over the rows, carrying the
`ifu_dxs` and `ifu_dys` dictionaries. -/
def storeDitherPosLoop :
    List (String × List ℚ) × List (String × List ℚ) → List (String × List ℚ) →
    Except DitherPosErr (List (String × List ℚ) × List (String × List ℚ))
  | acc, [] => .ok acc
  | acc, (key, vals) :: rest =>
    if vals.length % 2 = 1 then .error .oddCount
    else
      storeDitherPosLoop
        (dinsert acc.1 key (vals.take (vals.length / 2)),
         dinsert acc.2 key (vals.drop (vals.length / 2))) rest

/-- `_store_dither_positions` starting from empty dictionaries. -/
def storeDitherPositions (rows : List (String × List ℚ)) :
    Except DitherPosErr (List (String × List ℚ) × List (String × List ℚ)) :=
  storeDitherPosLoop ([], []) rows

/-! ### IFU center row parsing (`IFUCenter._read_ifu_map`,
ifu_centers.py lines 176-211)

Comment lines are skipped; any other line is split on whitespace and
fields 2-6 are taken (`split()[1:6]`), too few fields being an uncaught
`ValueError`.  A fiber-number token that does not convert with `int()`
silently drops the row; a non-positive fiber number also drops it
before the throughput is ever looked at; a positive fiber number with
`float(throughput) < 0` raises `IFUCenterError`; otherwise the channel
count is incremented and x, y, fiber number and throughput are appended
to the channel's parallel lists. -/

/-- The five per-channel defaultdicts of `IFUCenter`. -/
structure IFUMaps where
  nFibers : List (String × Nat)
  xifu : List (String × List PyFloat)
  yifu : List (String × List PyFloat)
  fibNumber : List (String × List Int)
  throughput : List (String × List PyFloat)
deriving DecidableEq

/-- All five defaultdicts start empty. -/
def emptyIFUMaps : IFUMaps := ⟨[], [], [], [], []⟩

/-- Ways `_read_ifu_map` can raise: too few fields to unpack
(`ValueError`), `IFUCenterError` on a live fiber with negative
throughput, and an uncaught `ValueError` from `float()`. -/
inductive IFUErr
  | fieldCount
  | throughputErr
  | floatErr
deriving DecidableEq

/-- A `defaultdict(int)` read: missing keys give 0. -/
def dGetNat (m : List (String × Nat)) (k : String) : Nat := (dlookup m k).getD 0

/-- A `defaultdict(list)` read: missing keys give the empty list. -/
def dGetList {α : Type} (m : List (String × List α)) (k : String) : List α :=
  (dlookup m k).getD []

/-- The five appends performed for an accepted fiber row on channel `ch`. -/
def ifuAppend (st : IFUMaps) (ch : String) (qx qy : PyFloat) (n : Int) (q : PyFloat) :
    IFUMaps :=
  { nFibers := dinsert st.nFibers ch (dGetNat st.nFibers ch + 1)
    xifu := dinsert st.xifu ch (dGetList st.xifu ch ++ [qx])
    yifu := dinsert st.yifu ch (dGetList st.yifu ch ++ [qy])
    fibNumber := dinsert st.fibNumber ch (dGetList st.fibNumber ch ++ [n])
    throughput := dinsert st.throughput ch (dGetList st.throughput ch ++ [q]) }

/-- One non-comment row of the IFU map, after `line.split()`. -/
def ifuRow (st : IFUMaps) (fields : List String) : Except IFUErr IFUMaps :=
  match fields with
  | _ :: x :: y :: ch :: fibTok :: t :: _ =>
    match pyint fibTok with
    | none => .ok st
    | some n =>
      if 0 < n then
        match pyfloat t with
        | none => .error .floatErr
        | some q =>
          if q.1 < 0 then .error .throughputErr
          else
            match pyfloat x, pyfloat y with
            | some qx, some qy => .ok (ifuAppend st ch qx qy n q)
            | _, _ => .error .floatErr
      else .ok st
  | _ => .error .fieldCount

/-- One line of the row phase: comment lines are skipped. -/
def ifuLine (st : IFUMaps) (l : String) : Except IFUErr IFUMaps :=
  if pyStartsWith l "#" then .ok st else ifuRow st (splitWS l)

/-- The `_read_ifu_map` loop over the remaining lines. -/
def ifuMapLoop : IFUMaps → List String → Except IFUErr IFUMaps
  | st, [] => .ok st
  | st, l :: rest =>
    match ifuLine st l with
    | .error e => .error e
    | .ok st' => ifuMapLoop st' rest

/-- `_read_ifu_map` starting from the empty defaultdicts. -/
def readIFUMap (lines : List String) : Except IFUErr IFUMaps :=
  ifuMapLoop emptyIFUMaps lines

/-! ### Configuration extension (`configuration.py`)

A configuration store is sections mapping to options mapping to string
values (the standard-library default-section, interpolation and case
folding features are not exercised by this repository's parsing logic
and are not modelled).  `cast_to` callables are modelled as fallible
functions; the boolean special case only swaps in a different callable
and needs no separate treatment for the claims below. -/

/-- Sections, each holding its options. -/
abbrev Config := List (String × List (String × String))

/-- Failures of the list accessors: `NoSectionError`, `NoOptionError`,
and a `ValueError` from the cast callable. -/
inductive ConfErr
  | noSection
  | noOption
  | castErr
deriving DecidableEq

/-- `ConfigParser.get(section, option)`: a missing section raises
`NoSectionError` and a missing option `NoOptionError`. -/
def confGet (conf : Config) (sec opt : String) : Except ConfErr String :=
  match dlookup conf sec with
  | none => .error .noSection
  | some opts =>
    match dlookup opts opt with
    | none => .error .noOption
    | some v => .ok v

/-- Cast every token with `cast_to(token.strip())`, failing on the first
cast error. -/
def castTokens {α : Type} (cast : String → Except Unit α) :
    List String → Except ConfErr (List α)
  | [] => .ok []
  | t :: ts =>
    match cast (pyStrip t) with
    | .error _ => .error .castErr
    | .ok a =>
      match castTokens cast ts with
      | .error e => .error e
      | .ok as => .ok (a :: as)

/-- `ConfigParser.get_list` (configuration.py lines 257-325). -/
def getList {α : Type} (conf : Config) (sec opt : String) (useDefault : Bool)
    (cast : String → Except Unit α) : Except ConfErr (List α) :=
  match confGet conf sec opt with
  | .error .noOption => if useDefault then .ok [] else .error .noOption
  | .error e => .error e
  | .ok v =>
    if (charStrip v.toList).isEmpty then .ok []
    else castTokens cast (pySplit v ",")

/-- Cast the comma-separated groups of `get_list_of_list`, splitting each
group on `-` with no constraint on how many tokens result. -/
def castGroups {α : Type} (cast : String → Except Unit α) :
    List String → Except ConfErr (List (List (Option α)))
  | [] => .ok []
  | g :: gs =>
    match castTokens cast (pySplit g "-") with
    | .error e => .error e
    | .ok as =>
      match castGroups cast gs with
      | .error e => .error e
      | .ok rest => .ok (as.map some :: rest)

/-- `ConfigParser.get_list_of_list` (configuration.py lines 188-255); the
`Option` in the result carries the `None` entries of the
`[[None, None]]` default alongside cast values. -/
def getListOfList {α : Type} (conf : Config) (sec opt : String) (useDefault : Bool)
    (cast : String → Except Unit α) : Except ConfErr (List (List (Option α))) :=
  match confGet conf sec opt with
  | .error .noOption => if useDefault then .ok [[none, none]] else .error .noOption
  | .error e => .error e
  | .ok v =>
    if (charStrip v.toList).isEmpty then .ok [[none, none]]
    else castGroups cast (pySplit v ",")

/-- The default `cast_to=str`: casting to string never fails. -/
def strCast : String → Except Unit String := fun s => .ok s

/-! ### Configuration override (`override_conf`, configuration.py lines 66-138) -/

/-- Scalar values an override attribute can hold. -/
inductive PyScalar
  | sNone
  | sStr (s : String)
  | sInt (n : Int)
deriving DecidableEq

/-- Values an override attribute can hold (lists of scalars cover every
use in the repository; Python equality on these values is structural). -/
inductive PyVal
  | vNone
  | vStr (s : String)
  | vInt (n : Int)
  | vList (l : List PyScalar)
deriving DecidableEq

/-- Python `str(v)` for a scalar. -/
def pyScalarStr : PyScalar → String
  | .sNone => "None"
  | .sStr s => s
  | .sInt n => toString n

/-- The value written into the configuration: lists are joined with
`', '.join([str(v) for v in value])`, everything else goes through
`str(value)`. -/
def pyValStr : PyVal → String
  | .vNone => "None"
  | .vStr s => s
  | .vInt n => toString n
  | .vList l => String.intercalate ", " (l.map pyScalarStr)

/-- `ConfigParser.set(section, option, value)` as `override_conf` reaches
it: updates the option in the named section, creating the option there
if needed (the section is always present when the guarding `get`
succeeded). -/
def confSet : Config → String → String → String → Config
  | [], _, _, _ => []
  | (n, opts) :: conf, sec, opt, v =>
    if n = sec then (n, dinsert opts opt v) :: confSet conf sec opt v
    else (n, opts) :: confSet conf sec opt v

/-- The body of the `override_conf` loop for one attribute `av` of
`args`: skip unless the name starts with `prefix + sep`; skip unless the
name splits on `sep` into exactly three pieces; skip when the value is
in `nones`; then write `str(value)` only if `conf.get` succeeds on the
section/option pair. -/
def overrideStep (pre sep : String) (nones : List PyVal) (conf : Config)
    (av : String × PyVal) : Config :=
  if !pyStartsWith av.1 (pre ++ sep) then conf
  else
    match pySplit av.1 sep with
    | [_, sec, opt] =>
      if av.2 ∈ nones then conf
      else
        match confGet conf sec opt with
        | .ok _ => confSet conf sec opt (pyValStr av.2)
        | .error _ => conf
    | _ => conf

/-- `override_conf` over the matching attributes of `args` (the `dir`
scan enumerates attribute names with their values). -/
def overrideConf (conf : Config) (args : List (String × PyVal)) (pre sep : String)
    (nones : List PyVal) : Config :=
  args.foldl (overrideStep pre sep nones) conf

/-! ### Supporting lemmas for the comment skipper -/

theorem drop_takeLine_length (cs : List Char) :
    cs.drop (takeLine cs).length = dropLine cs := by
  nth_rewrite 2 [← takeLine_append_dropLine cs]
  rw [List.drop_left]

theorem drop_add_eq (a b : Nat) (l : List Char) :
    l.drop (a + b) = (l.drop a).drop b := by
  rw [List.drop_drop, Nat.add_comm]

theorem takeLine_head (c : Char) (cs : List Char) :
    (takeLine (c :: cs)).head? = some c := by
  by_cases h : c = '\n'
  · simp [takeLine, h]
  · simp [takeLine, h]

theorem skipCommentsLen_fix (cs : List Char) :
    skipCommentsLen (cs.drop (skipCommentsLen cs)) = 0 := by
  induction cs using skipCommentsLen.induct with
  | case1 => simp [skipCommentsLen]
  | case2 cs ih =>
    rw [skipCommentsLen, if_pos rfl]
    rw [drop_add_eq, drop_takeLine_length]
    exact ih
  | case3 c cs hc =>
    rw [skipCommentsLen, if_neg hc, List.drop_zero, skipCommentsLen, if_neg hc]

theorem linesOf_drop_skip (cs : List Char) :
    linesOf (cs.drop (skipCommentsLen cs)) = (linesOf cs).dropWhile isCommentLine := by
  induction cs using skipCommentsLen.induct with
  | case1 => simp [skipCommentsLen, linesOf]
  | case2 cs ih =>
    rw [skipCommentsLen, if_pos rfl]
    rw [drop_add_eq, drop_takeLine_length, ih]
    conv_rhs => rw [linesOf]
    rw [List.dropWhile_cons_of_pos]
    simp [isCommentLine, takeLine_head]
  | case3 c cs hc =>
    rw [skipCommentsLen, if_neg hc, List.drop_zero]
    conv_rhs => rw [linesOf]
    rw [List.dropWhile_cons_of_neg]
    · conv_rhs => rw [← linesOf]
    · simp [isCommentLine, takeLine_head, hc]

/-! ### Supporting lemmas for the dither parser -/

/-- The five key lists of the dither dictionaries agree. -/
def keysAligned (st : DitherMaps) : Prop :=
  dkeys st.dx = dkeys st.basename ∧ dkeys st.dy = dkeys st.basename ∧
  dkeys st.seeing = dkeys st.basename ∧ dkeys st.norm = dkeys st.basename ∧
  dkeys st.airmass = dkeys st.basename

theorem keysAligned_ditherUpd (st : DitherMaps) (key bn : String)
    (fx fy fs fn fa : PyFloat) (h : keysAligned st) :
    keysAligned (ditherUpd st key bn fx fy fs fn fa) := by
  obtain ⟨h1, h2, h3, h4, h5⟩ := h
  refine ⟨?_, ?_, ?_, ?_, ?_⟩ <;>
    simp only [ditherUpd, dkeys_dinsert, h1, h2, h3, h4, h5]

theorem ditherLine_ok_shape (choose : List String → String) (env : Option PyEnv)
    (st : DitherMaps) (l : String) (env' : Option PyEnv) (st' : DitherMaps)
    (h : ditherLine choose env st l = .ok (env', st')) :
    ∃ key bn fx fy fs fn fa, st' = ditherUpd st key bn fx fy fs fn fa := by
  unfold ditherLine at h
  split at h
  · cases h
  · split at h
    · cases h
    · split at h
      · simp only [Except.ok.injEq, Prod.mk.injEq] at h
        exact ⟨_, _, _, _, _, _, _, h.2.symm⟩
      · cases h

theorem ditherLoop_aligned (choose : List String → String) :
    ∀ (lines : List String) (env : Option PyEnv) (st st' : DitherMaps),
      ditherLoop choose env st lines = .ok st' → keysAligned st → keysAligned st' := by
  intro lines
  induction lines with
  | nil =>
    intro env st st' h ha
    unfold ditherLoop at h
    cases h
    exact ha
  | cons l rest ih =>
    intro env st st' h ha
    unfold ditherLoop at h
    cases hl : ditherLine choose env st l with
    | error e => rw [hl] at h; cases h
    | ok p =>
      rw [hl] at h
      obtain ⟨env2, st2⟩ := p
      obtain ⟨key, bn, fx, fy, fs, fn, fa, hshape⟩ :=
        ditherLine_ok_shape choose env st l env2 st2 hl
      exact ih env2 st2 st' h (hshape ▸ keysAligned_ditherUpd st key bn fx fy fs fn fa ha)

/-! ### Supporting lemmas for the configuration override -/

/-- Value of `section`/`option` in a configuration (`None` when either
the section or the option is absent). -/
def confLookup (conf : Config) (sec opt : String) : Option String :=
  match dlookup conf sec with
  | none => none
  | some opts => dlookup opts opt

theorem confGet_ok_iff (conf : Config) (sec opt : String) (w : String) :
    confGet conf sec opt = .ok w ↔ confLookup conf sec opt = some w := by
  cases hs : dlookup conf sec with
  | none => simp [confGet, confLookup, hs]
  | some opts =>
    cases ho : dlookup opts opt with
    | none => simp [confGet, confLookup, hs, ho]
    | some u => simp [confGet, confLookup, hs, ho]

theorem dlookup_confSet (conf : Config) (sec opt v s : String) :
    dlookup (confSet conf sec opt v) s =
      (dlookup conf s).map (fun opts => if s = sec then dinsert opts opt v else opts) := by
  induction conf with
  | nil => simp [confSet, dlookup]
  | cons p conf ih =>
    obtain ⟨n, opts⟩ := p
    by_cases hsec : n = sec <;> by_cases hn : n = s
    · subst hsec
      subst hn
      simp [confSet, dlookup]
    · subst hsec
      simp [confSet, dlookup, hn, ih]
    · subst hn
      simp [confSet, dlookup, hsec, fun hh : n = sec => hsec hh]
    · simp [confSet, dlookup, hsec, hn, ih]

theorem confLookup_confSet (conf : Config) (sec opt v sec' opt' : String) :
    confLookup (confSet conf sec opt v) sec' opt' =
      if sec' = sec ∧ opt' = opt ∧ (dlookup conf sec).isSome then some v
      else confLookup conf sec' opt' := by
  unfold confLookup
  rw [dlookup_confSet]
  cases hsl : dlookup conf sec' with
  | none =>
    simp only [Option.map_none']
    by_cases h1 : sec' = sec
    · subst h1
      simp [hsl]
    · simp [h1]
  | some opts =>
    simp only [Option.map_some']
    by_cases h1 : sec' = sec
    · subst h1
      rw [hsl]
      simp only [if_pos rfl, Option.isSome_some, and_true]
      by_cases h2 : opt' = opt
      · subst h2
        simp [dlookup_dinsert_self]
      · simp [h2, dlookup_dinsert_ne opts opt opt' v h2]
    · simp [h1]

theorem dkeys_confSet (conf : Config) (sec opt v : String) :
    dkeys (confSet conf sec opt v) = dkeys conf := by
  induction conf with
  | nil => rfl
  | cons p conf ih =>
    obtain ⟨n, opts⟩ := p
    by_cases h : n = sec
    · simp [confSet, dkeys, h]
      exact ih
    · simp [confSet, dkeys, h]
      exact ih

theorem dkeys_overrideStep (pre sep : String) (nones : List PyVal) (conf : Config)
    (av : String × PyVal) :
    dkeys (overrideStep pre sep nones conf av) = dkeys conf := by
  unfold overrideStep
  split
  · rfl
  · split
    · split
      · rfl
      · split
        · exact dkeys_confSet conf _ _ _
        · rfl
    · rfl

theorem overrideStep_change (pre sep : String) (nones : List PyVal) (conf : Config)
    (a : String) (v : PyVal) (sec opt : String)
    (h : confLookup (overrideStep pre sep nones conf (a, v)) sec opt ≠
          confLookup conf sec opt) :
    confLookup conf sec opt ≠ none ∧ v ∉ nones ∧ pyStartsWith a (pre ++ sep) = true ∧
      ∃ x, pySplit a sep = [x, sec, opt] := by
  unfold overrideStep at h
  split at h
  · exact absurd rfl h
  · rename_i hpre
    split at h
    · rename_i x sec₀ opt₀ hsp
      split at h
      · exact absurd rfl h
      · rename_i hno
        split at h
        · rename_i w hget
          rw [confLookup_confSet] at h
          split at h
          · rename_i hcond
            obtain ⟨hs, ho, _⟩ := hcond
            subst hs
            subst ho
            refine ⟨?_, hno, by simpa using hpre, x, hsp⟩
            rw [(confGet_ok_iff conf sec opt w).mp hget]
            simp
          · exact absurd rfl h
        · exact absurd rfl h
    · exact absurd rfl h

theorem dkeys_overrideConf : ∀ (args : List (String × PyVal)) (conf : Config)
    (pre sep : String) (nones : List PyVal),
    dkeys (overrideConf conf args pre sep nones) = dkeys conf := by
  intro args
  induction args with
  | nil =>
    intro conf pre sep nones
    rfl
  | cons p rest ih =>
    intro conf pre sep nones
    rw [overrideConf, List.foldl_cons]
    have := ih (overrideStep pre sep nones conf p) pre sep nones
    rw [overrideConf] at this
    rw [this]
    exact dkeys_overrideStep pre sep nones conf p

theorem overrideConf_change : ∀ (args : List (String × PyVal)) (conf : Config)
    (pre sep : String) (nones : List PyVal) (sec opt : String),
    confLookup (overrideConf conf args pre sep nones) sec opt ≠ confLookup conf sec opt →
    confLookup conf sec opt ≠ none ∧
      ∃ a v, (a, v) ∈ args ∧ v ∉ nones ∧ pyStartsWith a (pre ++ sep) = true ∧
        ∃ x, pySplit a sep = [x, sec, opt] := by
  intro args
  induction args with
  | nil =>
    intro conf pre sep nones sec opt h
    exact absurd rfl h
  | cons p rest ih =>
    intro conf pre sep nones sec opt h
    rw [overrideConf, List.foldl_cons] at h
    by_cases h1 : confLookup (overrideStep pre sep nones conf p) sec opt =
        confLookup conf sec opt
    · have h2 : confLookup (overrideConf (overrideStep pre sep nones conf p) rest
          pre sep nones) sec opt ≠ confLookup (overrideStep pre sep nones conf p) sec opt := by
        rw [overrideConf, h1]
        exact h
      obtain ⟨hne, a, v, hmem, hnn, hpre, x, hsp⟩ :=
        ih (overrideStep pre sep nones conf p) pre sep nones sec opt h2
      rw [h1] at hne
      exact ⟨hne, a, v, List.mem_cons_of_mem p hmem, hnn, hpre, x, hsp⟩
    · obtain ⟨a, v⟩ := p
      obtain ⟨hne, hnn, hpre, x, hsp⟩ := overrideStep_change pre sep nones conf a v sec opt h1
      exact ⟨hne, a, v, List.mem_cons_self _ _, hnn, hpre, x, hsp⟩

/-! ### Supporting lemmas for the list accessors -/

theorem castTokens_strCast : ∀ (ts : List String),
    castTokens strCast ts = .ok (ts.map pyStrip) := by
  intro ts
  induction ts with
  | nil => rfl
  | cons t ts ih => simp [castTokens, strCast, ih]

theorem castGroups_strCast : ∀ (gs : List String),
    castGroups strCast gs =
      .ok (gs.map (fun g => (pySplit g "-").map (fun t => some (pyStrip t)))) := by
  intro gs
  induction gs with
  | nil => rfl
  | cons g gs ih => simp [castGroups, castTokens_strCast, ih, List.map_map, Function.comp]

/-! ### Claim theorems -/

/-- Claim C1 (code bug evidence): the claim says the dither key is derived
from the basename field and that an empty deduplicated match set yields a
`DitherParseError` reporting "0 matches found, expected one."  The code
instead searches the second field (`_d`, the modelbase column) and, because
the assignment `_d = list(set(...))[0]` failed, formats the message with
`len(_d)` — the character length of that raw field.  On a line whose
basename contains `D1` but whose modelbase has no match, parsing fails and
the reported count is 7 (the length of "nomodel"), never 0. -/
theorem c1_dither_parse_error_reports_length :
    (∀ choose : List String → String,
      readDither choose ["SIM-D1_046 nomodel 0.00 0.00 1.60 1.00 1.22"] =
        .error (.parseErr 7))
    ∧ findD "SIM-D1_046".toList = ["D1"] ∧ findD "nomodel".toList = [] :=
  ⟨fun _ => rfl, rfl, rfl⟩

/-- Claim C2 (code bug evidence): the claim says a line that does not split
into exactly 7 fields is skipped silently.  The `except ValueError: pass`
in the source does not skip the rest of the loop body: when the malformed
line is the first data line the seven locals are still unbound and the
regex step raises `UnboundLocalError`, aborting the parse. -/
theorem c2_malformed_first_line_raises :
    (∀ choose : List String → String, readDither choose ["a b c"] = .error .nameError)
    ∧ (splitWS "a b c").length = 3 :=
  ⟨fun _ => rfl, rfl⟩

/-- Claim C3 counterexample: a row with positive fiber number 3 and
throughput 0.0 is accepted and appended — the parse does not raise, so the
claim that a zero throughput is a fatal parse error is false (the source
comparison is `float(_t) < 0`, strict). -/
theorem c3_zero_throughput_counterexample :
    ifuRow emptyIFUMaps ["0007", "1.0", "2.0", "L", "3", "0.0"] =
      .ok (ifuAppend emptyIFUMaps "L" (10, 1) (20, 1) 3 (0, 1))
    ∧ ifuRow emptyIFUMaps ["0007", "1.0", "2.0", "L", "3", "0.0"] ≠
        .error .throughputErr :=
  ⟨by decide, by decide⟩

/-- Claim C3 (amended): a fiber row is included only if its fiber-number
token parses as a positive integer, and for every such included row a
strictly negative throughput value is a fatal parse error, while a zero
(or any non-negative) throughput is accepted and the row appended. -/
theorem c3_throughput_validation :
    (∀ (st : IFUMaps) (f0 x y ch fibTok t : String) (rest : List String),
        pyint fibTok = none →
        ifuRow st (f0 :: x :: y :: ch :: fibTok :: t :: rest) = .ok st)
    ∧ (∀ (st : IFUMaps) (f0 x y ch fibTok t : String) (rest : List String) (n : Int),
        pyint fibTok = some n → n ≤ 0 →
        ifuRow st (f0 :: x :: y :: ch :: fibTok :: t :: rest) = .ok st)
    ∧ (∀ (st : IFUMaps) (f0 x y ch fibTok t : String) (rest : List String)
        (n : Int) (q : PyFloat),
        pyint fibTok = some n → 0 < n → pyfloat t = some q → q.1 < 0 →
        ifuRow st (f0 :: x :: y :: ch :: fibTok :: t :: rest) = .error .throughputErr)
    ∧ (∀ (st : IFUMaps) (f0 x y ch fibTok t : String) (rest : List String)
        (n : Int) (q qx qy : PyFloat),
        pyint fibTok = some n → 0 < n → pyfloat t = some q → 0 ≤ q.1 →
        pyfloat x = some qx → pyfloat y = some qy →
        ifuRow st (f0 :: x :: y :: ch :: fibTok :: t :: rest) =
          .ok (ifuAppend st ch qx qy n q)) := by
  refine ⟨?_, ?_, ?_, ?_⟩
  · intro st f0 x y ch fibTok t rest hfib
    simp [ifuRow, hfib]
  · intro st f0 x y ch fibTok t rest n hfib hn
    simp [ifuRow, hfib, not_lt.mpr hn]
  · intro st f0 x y ch fibTok t rest n q hfib hpos hq hneg
    simp [ifuRow, hfib, hpos, hq, hneg]
  · intro st f0 x y ch fibTok t rest n q qx qy hfib hpos hq hge hqx hqy
    simp [ifuRow, hfib, hpos, hq, hqx, hqy, not_lt.mpr hge]

/-- Witness for the amended claim C3, instantiating each conjunct on a
concrete row. -/
theorem c3_throughput_validation_witness :
    ifuRow emptyIFUMaps ["0001", "1.0", "2.0", "L", "nan", "0.5"] = .ok emptyIFUMaps
    ∧ ifuRow emptyIFUMaps ["0002", "1.0", "2.0", "L", "-7", "0.5"] = .ok emptyIFUMaps
    ∧ ifuRow emptyIFUMaps ["0003", "1.0", "2.0", "R", "2", "-1.5"] = .error .throughputErr
    ∧ ifuRow emptyIFUMaps ["0004", "1.0", "2.0", "R", "2", "1.5"] =
        .ok (ifuAppend emptyIFUMaps "R" (10, 1) (20, 1) 2 (15, 1)) :=
  ⟨c3_throughput_validation.1 emptyIFUMaps "0001" "1.0" "2.0" "L" "nan" "0.5" []
      (by decide),
   c3_throughput_validation.2.1 emptyIFUMaps "0002" "1.0" "2.0" "L" "-7" "0.5" [] (-7)
      (by decide) (by decide),
   c3_throughput_validation.2.2.1 emptyIFUMaps "0003" "1.0" "2.0" "R" "2" "-1.5" [] 2
      ((-15 : Int), 1) (by decide) (by decide) (by decide) (by decide),
   c3_throughput_validation.2.2.2 emptyIFUMaps "0004" "1.0" "2.0" "R" "2" "1.5" [] 2
      ((15 : Int), 1) ((10 : Int), 1) ((20 : Int), 1) (by decide) (by decide) (by decide)
      (by decide) (by decide) (by decide)⟩

/-- Claim C4: whenever `_read_dither` returns without raising, the five
dictionaries `basename`, `dx`, `dy`, `seeing` and `norm`/`airmass` have
exactly the same key list (hence the same key set). -/
theorem c4_dither_key_sets_aligned :
    ∀ (choose : List String → String) (lines : List String) (st : DitherMaps),
      readDither choose lines = .ok st → keysAligned st := by
  intro choose lines st h
  unfold readDither at h
  exact ditherLoop_aligned choose _ none emptyDitherMaps st h ⟨rfl, rfl, rfl, rfl, rfl⟩

/-- The head-of-list chooser, a concrete instance of the unspecified
`list(set(...))[0]` selection. -/
def chooseHead : List String → String := fun l => l.headD ""

/-- Witness for claim C4 on a concrete one-dither file. -/
theorem c4_dither_key_sets_aligned_witness :
    keysAligned
      ⟨[("D1", "SIM_D1_046")], [("D1", (5, 1))], [("D1", (5, 1))], [("D1", (15, 1))],
       [("D1", (10, 1))], [("D1", (125, 2))]⟩ :=
  c4_dither_key_sets_aligned chooseHead
    ["# c", "SIM_D1_046 SIM_D1_046 0.5 0.5 1.5 1.0 1.25"] _ (by decide)

/-- Claim C5 counterexample: on the value "3500-4500,5500" with the default
string cast, `get_list_of_list` returns normally with an inner list of
length 1 — no fatal error is raised for a group that does not split into
exactly two tokens. -/
theorem c5_group_arity_counterexample :
    getListOfList [("section", [("opt", "3500-4500,5500")])] "section" "opt" false strCast =
      .ok [[some "3500", some "4500"], [some "5500"]]
    ∧ ([[some "3500", some "4500"], [some "5500"]] : List (List (Option String))).map
        List.length = [2, 1] :=
  ⟨by decide, by decide⟩

/-- Claim C5 (amended): for every non-empty option value, `get_list_of_list`
with the default string cast splits the value on `,` and each group on `-`
and returns all resulting tokens stripped — no check constrains a group to
two tokens and no error is raised for any group shape. -/
theorem c5_no_group_arity_check :
    ∀ (conf : Config) (sec opt v : String) (useDefault : Bool),
      confGet conf sec opt = .ok v → (charStrip v.toList).isEmpty = false →
      getListOfList conf sec opt useDefault strCast =
        .ok ((pySplit v ",").map (fun g => (pySplit g "-").map (fun t => some (pyStrip t)))) := by
  intro conf sec opt v useDefault hget hv
  have hv' : charStrip v.toList ≠ [] := by simpa using hv
  simp [getListOfList, hget, hv', castGroups_strCast]
  intro hc
  exact absurd hc hv'

/-- Witness for the amended claim C5 on a three-token group. -/
theorem c5_no_group_arity_check_witness :
    getListOfList [("s", [("o", "a-b-c,d")])] "s" "o" false strCast =
      .ok [[some "a", some "b", some "c"], [some "d"]] :=
  c5_no_group_arity_check [("s", [("o", "a-b-c,d")])] "s" "o" "a-b-c,d" false
    (by decide) (by decide)

/-- Claim C6: in IFU row parsing, a non-positive fiber number (such as -5)
contributes nothing to any channel regardless of the throughput token; a
row with fiber number 3 and throughput -0.1 raises `IFUCenterError`; a row
with fiber number 3 and throughput 0.0 is accepted and its x, y, fiber
number and throughput appended to the channel's sequences. -/
theorem c6_ifu_row_cases :
    (∀ (st : IFUMaps) (f0 x y ch fibTok t : String) (rest : List String) (n : Int),
        pyint fibTok = some n → n ≤ 0 →
        ifuRow st (f0 :: x :: y :: ch :: fibTok :: t :: rest) = .ok st)
    ∧ (∀ (st : IFUMaps) (f0 x y ch : String) (rest : List String),
        ifuRow st (f0 :: x :: y :: ch :: "3" :: "-0.1" :: rest) = .error .throughputErr)
    ∧ (∀ (st : IFUMaps) (f0 x y ch : String) (rest : List String) (qx qy : PyFloat),
        pyfloat x = some qx → pyfloat y = some qy →
        ifuRow st (f0 :: x :: y :: ch :: "3" :: "0.0" :: rest) =
          .ok (ifuAppend st ch qx qy 3 (0, 1))) := by
  refine ⟨?_, ?_, ?_⟩
  · intro st f0 x y ch fibTok t rest n hfib hn
    simp [ifuRow, hfib, not_lt.mpr hn]
  · intro st f0 x y ch rest
    have h3 : pyint "3" = some 3 := by decide
    have hq : pyfloat "-0.1" = some ((-1 : Int), 1) := by decide
    simp [ifuRow, h3, hq, show (0 : Int) < 3 by norm_num, show (-1 : Int) < 0 by norm_num]
  · intro st f0 x y ch rest qx qy hqx hqy
    have h3 : pyint "3" = some 3 := by decide
    have hq : pyfloat "0.0" = some ((0 : Int), 1) := by decide
    simp [ifuRow, h3, hq, hqx, hqy, show (0 : Int) < 3 by norm_num]

/-- Witness for claim C6, one concrete row per case (the dropped row uses
an unparseable throughput token to show the throughput is never read). -/
theorem c6_ifu_row_cases_witness :
    ifuRow emptyIFUMaps ["0001", "1.0", "2.0", "L", "-5", "zzz"] = .ok emptyIFUMaps
    ∧ ifuRow emptyIFUMaps ["0002", "1.0", "2.0", "R", "3", "-0.1"] = .error .throughputErr
    ∧ ifuRow emptyIFUMaps ["0003", "1.5", "2.5", "L", "3", "0.0"] =
        .ok (ifuAppend emptyIFUMaps "L" (15, 1) (25, 1) 3 (0, 1)) :=
  ⟨c6_ifu_row_cases.1 emptyIFUMaps "0001" "1.0" "2.0" "L" "-5" "zzz" [] (-5)
      (by decide) (by decide),
   c6_ifu_row_cases.2.1 emptyIFUMaps "0002" "1.0" "2.0" "R" [],
   c6_ifu_row_cases.2.2 emptyIFUMaps "0003" "1.5" "2.5" "L" [] ((15 : Int), 1)
      ((25 : Int), 1) (by decide) (by decide)⟩

/-- Claim C7: a dither-position row stores the first half of its trailing
values as `dx` and the second half as `dy` (equal lengths); an odd number
of trailing values raises `DitherPositionError`; and the concrete row
`["000", 0.0, -1.27, -1.27, 0.0, 0.73, -0.73]` yields
`dx["000"] = [0.0, -1.27, -1.27]` and `dy["000"] = [0.0, 0.73, -0.73]`. -/
theorem c7_dither_positions_split :
    (∀ (ident : String) (vals : List ℚ),
        (vals.length % 2 = 1 → storeDitherPositions [(ident, vals)] = .error .oddCount)
        ∧ (vals.length % 2 = 0 →
            storeDitherPositions [(ident, vals)] =
              .ok ([(ident, vals.take (vals.length / 2))],
                   [(ident, vals.drop (vals.length / 2))])))
    ∧ storeDitherPositions [("000", [(0 : ℚ), -127/100, -127/100, 0, 73/100, -73/100])] =
        .ok ([("000", [(0 : ℚ), -127/100, -127/100])],
             [("000", [(0 : ℚ), 73/100, -73/100])]) := by
  refine ⟨fun ident vals => ⟨?_, ?_⟩, ?_⟩
  · intro hodd
    simp [storeDitherPositions, storeDitherPosLoop, hodd]
  · intro heven
    have hne : ¬vals.length % 2 = 1 := by omega
    simp [storeDitherPositions, storeDitherPosLoop, hne, dinsert]
  · rfl

/-- Witness for claim C7 on a one-value row (odd) and a two-value row
(even). -/
theorem c7_dither_positions_split_witness :
    storeDitherPositions [("b", [(0 : ℚ)])] = .error .oddCount
    ∧ storeDitherPositions [("a", [(0 : ℚ), 1])] =
        .ok ([("a", [(0 : ℚ)])], [("a", [(1 : ℚ)])]) :=
  ⟨(c7_dither_positions_split.1 "b" [(0 : ℚ)]).1 (by decide),
   (c7_dither_positions_split.1 "a" [(0 : ℚ), 1]).2 (by decide)⟩

/-- Claim C8: `override_conf` never creates a section or an option — the
section list is unchanged and any section/option pair whose value changed
already existed in the configuration and had a matching attribute
`prefix<sep>section<sep>option` in the override source whose value is not
in the skip set; every other pair is unchanged. -/
theorem c8_override_conf_preserves :
    ∀ (conf : Config) (args : List (String × PyVal)) (pre sep : String)
      (nones : List PyVal),
      dkeys (overrideConf conf args pre sep nones) = dkeys conf
      ∧ ∀ sec opt,
          confLookup (overrideConf conf args pre sep nones) sec opt ≠
            confLookup conf sec opt →
          confLookup conf sec opt ≠ none ∧
            ∃ a v, (a, v) ∈ args ∧ v ∉ nones ∧ pyStartsWith a (pre ++ sep) = true ∧
              ∃ x, pySplit a sep = [x, sec, opt] :=
  fun conf args pre sep nones =>
    ⟨dkeys_overrideConf args conf pre sep nones,
     fun sec opt h => overrideConf_change args conf pre sep nones sec opt h⟩

/-- Witness for claim C8: overriding an existing option with a non-skip
value changes it, and the change exhibits the required matching
attribute. -/
theorem c8_override_conf_preserves_witness :
    confLookup [("sec1", [("opt1", "val1")])] "sec1" "opt1" ≠ none
    ∧ ∃ a v, (a, v) ∈ [("setting__sec1__opt1", PyVal.vStr "val2")] ∧
        v ∉ [PyVal.vNone, PyVal.vList []] ∧
        pyStartsWith a ("setting" ++ "__") = true ∧
        ∃ x, pySplit a "__" = [x, "sec1", "opt1"] :=
  (c8_override_conf_preserves [("sec1", [("opt1", "val1")])]
      [("setting__sec1__opt1", PyVal.vStr "val2")] "setting" "__"
      [PyVal.vNone, PyVal.vList []]).2 "sec1" "opt1" (by decide)

/-- Claim C9: `skip_comments` leaves the cursor at the start of the first
non-comment line (the remaining character stream holds exactly the lines
after the leading comment block), and calling it again from that position
is a no-op. -/
theorem c9_skip_comments_idempotent :
    ∀ (content : List Char) (pos : Nat),
      skipComments content (skipComments content pos) = skipComments content pos
      ∧ linesOf (content.drop (skipComments content pos)) =
          (linesOf (content.drop pos)).dropWhile isCommentLine := by
  intro content pos
  constructor
  · unfold skipComments
    rw [drop_add_eq, skipCommentsLen_fix, Nat.add_zero]
  · unfold skipComments
    rw [drop_add_eq, linesOf_drop_skip]

/-- Claim C10: when the section is absent, `get_list` and
`get_list_of_list` raise `NoSectionError` even with `use_default=True`;
the default (`[]` and `[[None, None]]` respectively) is produced by the
fallback only when the section exists and the option is missing. -/
theorem c10_missing_section_raises {α : Type} :
    ∀ (conf : Config) (sec opt : String) (useDefault : Bool)
      (cast : String → Except Unit α),
      (dlookup conf sec = none →
        getList conf sec opt useDefault cast = .error .noSection
        ∧ getListOfList conf sec opt useDefault cast = .error .noSection)
      ∧ (∀ opts, dlookup conf sec = some opts → dlookup opts opt = none →
          getList conf sec opt true cast = .ok []
          ∧ getListOfList conf sec opt true cast = .ok [[none, none]]) := by
  intro conf sec opt useDefault cast
  constructor
  · intro hs
    have hget : confGet conf sec opt = .error .noSection := by
      simp [confGet, hs]
    constructor
    · simp [getList, hget]
    · simp [getListOfList, hget]
  · intro opts hs ho
    have hget : confGet conf sec opt = .error .noOption := by
      simp [confGet, hs, ho]
    constructor
    · simp [getList, hget]
    · simp [getListOfList, hget]

/-- Witness for claim C10: a missing section raises even with the default
requested, and a missing option in an existing section gives the
defaults. -/
theorem c10_missing_section_raises_witness :
    (getList ([("s", [("o", "1")])] : Config) "t" "o" true strCast = .error .noSection
      ∧ getListOfList ([("s", [("o", "1")])] : Config) "t" "o" true strCast =
          .error .noSection)
    ∧ (getList ([("s", [("o", "1")])] : Config) "s" "p" true strCast = .ok []
      ∧ getListOfList ([("s", [("o", "1")])] : Config) "s" "p" true strCast =
          .ok [[none, none]]) :=
  ⟨(c10_missing_section_raises [("s", [("o", "1")])] "t" "o" true strCast).1 (by decide),
   (c10_missing_section_raises [("s", [("o", "1")])] "s" "p" true strCast).2 [("o", "1")]
      (by decide) (by decide)⟩
